import Mathlib

/-! cosign: flag predicates, key-pair generation and the verify command

A shallow embedding of

* `cmd/cosign/cli/flags.go`  (`oneOf`, `allOf`),
* `cmd/cosign/cli/verify.go` (`VerifyCommand.Exec`, `VerifyCommand.printVerification`),
* `pkg/cosign/keys.go`      (`GenerateKeyPair`).

Go values are modelled by explicit data: an `interface{}` value is a `GoValue`,
a Go `error` is a `GoError`, a nil-able map or slice is an `Option` of a list
(`none` is the Go `nil`).  Calls into other packages (`encoding/json`,
`encoding/pem`, `crypto/ed25519`, `cosign.Verify`, ...) are parameters of the
embedded functions; every call that the claims count is recorded in a trace.
-/

namespace Cosign

/-! ## Go values -/

/-- An `interface{}` value.  `nilInterface` is the nil interface; a slice or a map
carries `none` when it is the Go `nil` slice or map. -/
inductive GoValue where
  | nilInterface : GoValue
  | bool : Bool → GoValue
  | int : Int → GoValue
  | str : String → GoValue
  | slice : Option (List GoValue) → GoValue
  | map : Option (List (String × GoValue)) → GoValue

/-- The value `reflect.ValueOf(arg).IsZero()`: `none` is the run-time panic that
`IsZero` raises on the invalid `reflect.Value` obtained from a nil interface.
A string is zero when empty, a number when `0`, a boolean when `false`, a slice
or map when it is `nil` (an empty non-nil one is not zero). -/
def GoValue.isZero : GoValue → Option Bool
  | .nilInterface => none
  | .bool b => some (!b)
  | .int n => some (n == 0)
  | .str s => some (s == "")
  | .slice xs => some xs.isNone
  | .map m => some m.isNone

/-- The argument is not the nil interface, so that its zero-ness is defined. -/
def GoValue.defined (v : GoValue) : Prop := v.isZero ≠ none

/-- The argument is a non-zero value with a defined zero-ness. -/
def GoValue.nonZero (v : GoValue) : Bool := v.isZero == some false

/-! ## `flags.go` -/

/-- The `for` loop of `oneOf`, started with the current value of `foundOne`;
`none` is a panic. -/
def oneOfLoop : Bool → List GoValue → Option Bool
  | foundOne, [] => some foundOne
  | foundOne, arg :: rest =>
    match arg.isZero with
    | none => none
    | some z =>
      if !z then
        if foundOne then some false
        else oneOfLoop true rest
      else oneOfLoop foundOne rest

/-- The function `oneOf(args ...interface{}) bool`. -/
def oneOf (args : List GoValue) : Option Bool :=
  oneOfLoop false args

/-- The `for` loop of `allOf`, started with the current value of `foundAll`;
`none` is a panic. -/
def allOfLoop : Bool → List GoValue → Option Bool
  | foundAll, [] => some foundAll
  | _, arg :: rest =>
    match arg.isZero with
    | none => none
    | some z =>
      if z then some false
      else allOfLoop true rest

/-- The function `allOf(args ...interface{}) bool`. -/
def allOf (args : List GoValue) : Option Bool :=
  allOfLoop false args

/-! ## Go errors and byte strings -/

/-- A Go `error` value that is not nil.  `errHelp` is `flag.ErrHelp`,
`keyParseError` is `&KeyParseError{}`, `msg` is an error raised by a called
package, `wrap cause message` is `errors.Wrap(cause, message)`. -/
inductive GoError where
  | errHelp : GoError
  | keyParseError : GoError
  | msg : String → GoError
  | wrap : GoError → String → GoError
  deriving DecidableEq, Repr

/-- A Go `[]byte`. -/
abbrev Bytes := List Nat

/-! ## `pkg/cosign/keys.go` -/

/-- The fields of `pem.Block` that `GenerateKeyPair` sets (`Headers` stays nil). -/
structure Block where
  Type_ : String
  Bytes : Bytes
  deriving DecidableEq, Repr

/-- The struct `Keys`. -/
structure Keys where
  PrivateBytes : Bytes
  PublicBytes : Bytes
  deriving DecidableEq, Repr

/-- The type `PassFunc func(bool) ([]byte, error)`. -/
abbrev PassFunc := Bool → Except GoError Bytes

/-- The packages `GenerateKeyPair` calls.  `generateKey` is the outcome of
`ed25519.GenerateKey(rand.Reader)` as `(pub, priv)`, `encrypt` is
`encrypted.Encrypt`, `marshalPKIXPublicKey` is `x509.MarshalPKIXPublicKey` and
`encodeToMemory` is `pem.EncodeToMemory`. -/
structure KeyLib where
  generateKey : Except GoError (Bytes × Bytes)
  encrypt : Bytes → Bytes → Except GoError Bytes
  marshalPKIXPublicKey : Bytes → Except GoError Bytes
  encodeToMemory : Block → Bytes

/-- What a call of `GenerateKeyPair` returns, the pair `(*Keys, error)` with
`none` for nil, together with the arguments of the calls of the password
function, in call order. -/
structure KeyGenResult where
  keys : Option Keys
  err : Option GoError
  passCalls : List Bool
  deriving DecidableEq, Repr

/-- One call `pf(confirm)`: the call is appended to the trace. -/
def callPass (pf : PassFunc) (confirm : Bool) (trace : List Bool) :
    Except GoError Bytes × List Bool :=
  (pf confirm, trace ++ [confirm])

/-- The function `GenerateKeyPair(pf PassFunc) (*Keys, error)`. -/
def GenerateKeyPair (lib : KeyLib) (pf : PassFunc) : KeyGenResult :=
  let trace : List Bool := []
  match lib.generateKey with
  | .error err => ⟨none, some err, trace⟩
  | .ok (pub, priv) =>
    match callPass pf true trace with
    | (.error err, trace) => ⟨none, some err, trace⟩
    | (.ok password, trace) =>
      match lib.encrypt priv password with
      | .error err => ⟨none, some err, trace⟩
      | .ok encBytes =>
        let privBytes := lib.encodeToMemory
          { Bytes := encBytes, Type_ := "ENCRYPTED COSIGN PRIVATE KEY" }
        match lib.marshalPKIXPublicKey pub with
        | .error err => ⟨none, some err, trace⟩
        | .ok b =>
          let pubBytes := lib.encodeToMemory { Type_ := "PUBLIC KEY", Bytes := b }
          ⟨some { PrivateBytes := privBytes, PublicBytes := pubBytes }, none, trace⟩

/-! ## `cmd/cosign/cli/verify.go`: data -/

/-- A Go `map[string]interface{}`; `none` is the nil map, and a key occurs at
most once in a map built with `mapSet`. -/
abbrev GoMap := Option (List (String × GoValue))

/-- The assignment `m[k] = v` on a non-nil map. -/
def mapSet (m : List (String × GoValue)) (k : String) (v : GoValue) :
    List (String × GoValue) :=
  (k, v) :: m.filter (fun e => e.1 != k)

/-- The lookup `m[k]` with its presence flag; the nil map has no key. -/
def mapGet (m : GoMap) (k : String) : Option GoValue :=
  match m with
  | none => none
  | some entries => (entries.find? (fun e => e.1 == k)).map (fun e => e.2)

/-- The part of `x509.Certificate` that is read: `Subject.CommonName`. -/
structure Certificate where
  CommonName : String
  deriving DecidableEq, Repr

/-- The fields of `cosign.SignedPayload` that are read.  `Payload` is the byte
string of the payload; `Cert` is `none` for a nil certificate. -/
structure SignedPayload where
  Payload : String
  Cert : Option Certificate
  deriving DecidableEq, Repr

/-- The struct `payload.Simple`: the critical section, kept as one datum, and
the `Optional` map. -/
structure Simple where
  Critical : String
  Optional : GoMap

/-- The struct `cosign.CheckOpts` as `Exec` fills it.  `Annotations` is `none`
for the nil map, `PubKey` is `none` for the nil key. -/
structure CheckOpts where
  Annotations : GoMap
  Claims : Bool
  Tlog : Bool
  Roots : List String
  PubKey : Option String

/-- The struct `VerifyCommand`.  `Annotations` is a pointer to a map: the outer
`none` is the nil pointer, the inner `none` the nil map. -/
structure VerifyCommand where
  CheckClaims : Bool
  KmsVal : String
  Key : String
  Output : String
  OutputFile : String
  Annotations : Option GoMap

/-- The packages `Exec` and `printVerification` call.  `experimental` is the
value of `cosign.Experimental()`, `fulcioRoots` the value of `fulcio.Roots`,
`create` is `os.Create` (its file is the sink of the later writes),
`unmarshal` is `json.Unmarshal(payload, &ss)` into a fresh `payload.Simple`
(the error is `err.Error()`), and `marshal` is `json.Marshal` of the slice
`outputKeys`, `none` being the nil slice. -/
structure VerifyEnv where
  experimental : Bool
  fulcioRoots : List String
  loadPublicKey : String → Except GoError String
  create : String → Except GoError Unit
  parseReference : String → Except GoError String
  verify : String → CheckOpts → Except GoError (List SignedPayload)
  unmarshal : String → Except String Simple
  marshal : Option (List Simple) → Except String String

/-- A call that `Exec` makes into another package. -/
inductive Call where
  | experimental : Call
  | loadPublicKey : String → Call
  | create : String → Call
  | parseReference : String → Call
  | verify : String → CheckOpts → Call
  | close : String → Call

/-- How a call of `Exec` ends: it returns an `error` (`none` is nil), or it
panics. -/
inductive Outcome where
  | returned : Option GoError → Outcome
  | panicked : Outcome
  deriving DecidableEq, Repr

/-- The observable behaviour of one call of `Exec`: how it ends, the calls into
other packages in call order, and the strings written to `outputFile` in write
order. -/
structure ExecResult where
  outcome : Outcome
  calls : List Call
  written : List String

/-! ## `cmd/cosign/cli/verify.go`: code -/

/-- The text written by `fmt.Fprintln(file, operands...)`: the operands
separated by one space, then a newline. -/
def Fprintln (operands : List String) : String :=
  " ".intercalate operands ++ "\n"

/-- The built-in `append(s, x)` on a slice that may be nil. -/
def goAppend {α : Type} (s : Option (List α)) (x : α) : Option (List α) :=
  some (s.getD [] ++ [x])

/-- The body of the `"text"` loop of `printVerification`, from the given
signature on; `file` is what was written so far. -/
def textLoop : List SignedPayload → List String → List String
  | [], file => file
  | vp :: rest, file =>
    let file :=
      match vp.Cert with
      | some cert => file ++ [Fprintln ["Certificate common name: ", cert.CommonName]]
      | none => file
    let file := file ++ [Fprintln [vp.Payload]]
    textLoop rest file

/-- The statements of the default loop of `printVerification` that follow a
successful `json.Unmarshal`: the common name of a certificate is stored under
`"CommonName"`, in a new map when `Optional` is nil. -/
def injectCommonName (ss : Simple) (cert : Option Certificate) : Simple :=
  match cert with
  | some crt =>
    let optional := match ss.Optional with
      | none => []
      | some m => m
    { ss with Optional := some (mapSet optional "CommonName" (GoValue.str crt.CommonName)) }
  | none => ss

/-- The default loop of `printVerification`, from the given signature on, with
the current `outputKeys`; `.error msg` is the early exit taken when a payload
does not decode, `msg` being `err.Error()`. -/
def structuredLoop (env : VerifyEnv) :
    List SignedPayload → Option (List Simple) → Except String (Option (List Simple))
  | [], outputKeys => .ok outputKeys
  | vp :: rest, outputKeys =>
    match env.unmarshal vp.Payload with
    | .error msg => .error msg
    | .ok ss =>
      let ss := injectCommonName ss vp.Cert
      structuredLoop env rest (goAppend outputKeys ss)

/-- The method `printVerification(file, imgRef, verified, co)`: the strings it
writes to `file`, in write order. -/
def printVerification (env : VerifyEnv) (c : VerifyCommand) (imgRef : String)
    (verified : List SignedPayload) (co : CheckOpts) : List String :=
  let file : List String := []
  let file := file ++ ["\nVerification for " ++ imgRef ++ " --\n"]
  let file := file ++
    [Fprintln ["The following checks were performed on each of these signatures:"]]
  let file :=
    if co.Claims then
      let file :=
        if co.Annotations.isSome then
          file ++ [Fprintln ["  - The specified annotations were verified."]]
        else file
      file ++ [Fprintln ["  - The cosign claims were validated"]]
    else file
  let file :=
    if co.Tlog then
      file ++ [Fprintln ["  - The claims were present in the transparency log"]] ++
        [Fprintln ["  - The signatures were integrated into the transparency log when the certificate was valid"]]
    else file
  let file :=
    if co.PubKey.isSome then
      file ++ [Fprintln ["  - The signatures were verified against the specified public key"]]
    else file
  let file := file ++
    [Fprintln ["  - Any certificates were verified against the Fulcio roots."]]
  if c.Output == "text" then
    textLoop verified file
  else
    match structuredLoop env verified none with
    | .error msg => file ++ [Fprintln ["error decoding the payload:", msg]]
    | .ok outputKeys =>
      match env.marshal outputKeys with
      | .error msg => file ++ [Fprintln ["error when generating the output:", msg]]
      | .ok b => file ++ ["\n" ++ b ++ "\n"]

/-- The `for` loop of `Exec` from the given argument on, with the calls made and
the strings written so far. -/
def execLoop (env : VerifyEnv) (c : VerifyCommand) (co : CheckOpts) :
    List String → List Call → List String → ExecResult
  | [], calls, written => ⟨.returned none, calls, written⟩
  | imageRef :: rest, calls, written =>
    let calls := calls ++ [Call.parseReference imageRef]
    match env.parseReference imageRef with
    | .error err => ⟨.returned (some err), calls, written⟩
    | .ok ref =>
      let calls := calls ++ [Call.verify ref co]
      match env.verify ref co with
      | .error err => ⟨.returned (some err), calls, written⟩
      | .ok verified =>
        execLoop env c co rest calls (written ++ printVerification env c imageRef verified co)

/-- The deferred `outputFile.Close()`, which runs when `Exec` ends after the
output file was created. -/
def deferClose (path : String) (r : ExecResult) : ExecResult :=
  { r with calls := r.calls ++ [Call.close path] }

/-- The statements of `Exec` from `outputFile := os.Stdout` to the end, with the
options `co` and the calls made so far. -/
def execOutput (env : VerifyEnv) (c : VerifyCommand) (co : CheckOpts)
    (args : List String) (calls : List Call) : ExecResult :=
  if c.OutputFile != "" then
    let calls := calls ++ [Call.create c.OutputFile]
    match env.create c.OutputFile with
    | .error err =>
      ⟨.returned (some (.wrap err ("Error creating output file " ++ c.OutputFile))), calls, []⟩
    | .ok _ => deferClose c.OutputFile (execLoop env c co args calls [])
  else execLoop env c co args calls []

/-- The statements of `Exec` from `co := cosign.CheckOpts{...}` to the end of the
`// Keys are optional!` block: the options, or the wrapped error of
`cosign.LoadPublicKey`, and the calls made. -/
def loadOptions (env : VerifyEnv) (c : VerifyCommand) (annotations : GoMap) :
    Except GoError CheckOpts × List Call :=
  let calls := [Call.experimental]
  let co : CheckOpts :=
    { Annotations := annotations, Claims := c.CheckClaims, Tlog := env.experimental,
      Roots := env.fulcioRoots, PubKey := none }
  let pubKeyDescriptor := if c.KmsVal != "" then c.KmsVal else c.Key
  if pubKeyDescriptor != "" then
    let calls := calls ++ [Call.loadPublicKey pubKeyDescriptor]
    match env.loadPublicKey pubKeyDescriptor with
    | .error err => (.error (.wrap err "loading public key"), calls)
    | .ok pubKey => (.ok { co with PubKey := some pubKey }, calls)
  else (.ok co, calls)

/-- The method `Exec(ctx, args)`.  Dereferencing a nil `c.Annotations` panics
while the literal `cosign.CheckOpts{...}` is built, after the call of
`cosign.Experimental()` that the literal holds. -/
def Exec (env : VerifyEnv) (c : VerifyCommand) (args : List String) : ExecResult :=
  if args.length == 0 then ⟨.returned (some .errHelp), [], []⟩
  else if c.Key != "" && c.KmsVal != "" then ⟨.returned (some .keyParseError), [], []⟩
  else
    match c.Annotations with
    | none => ⟨.panicked, [Call.experimental], []⟩
    | some annotations =>
      match loadOptions env c annotations with
      | (.error err, calls) => ⟨.returned (some err), calls, []⟩
      | (.ok co, calls) => execOutput env c co args calls

/-- The error that stops the loop of `Exec` at the reference `imageRef`: the
error of `name.ParseReference`, or else the error of `cosign.Verify`; `none` when
both succeed. -/
def refError (env : VerifyEnv) (co : CheckOpts) (imageRef : String) : Option GoError :=
  match env.parseReference imageRef with
  | .error err => some err
  | .ok ref =>
    match env.verify ref co with
    | .error err => some err
    | .ok _ => none

/-- The calls of one pass of the loop of `Exec` for `imageRef`: one
`name.ParseReference`, followed by one `cosign.Verify` when the reference
parses. -/
def refCalls (env : VerifyEnv) (co : CheckOpts) (imageRef : String) : List Call :=
  match env.parseReference imageRef with
  | .error _ => [Call.parseReference imageRef]
  | .ok ref => [Call.parseReference imageRef, Call.verify ref co]

/-- The verification block of `imageRef`: what `printVerification` writes for
its verified signatures; empty when the reference fails. -/
def refBlock (env : VerifyEnv) (c : VerifyCommand) (co : CheckOpts) (imageRef : String) :
    List String :=
  match env.parseReference imageRef with
  | .error _ => []
  | .ok ref =>
    match env.verify ref co with
    | .error _ => []
    | .ok verified => printVerification env c imageRef verified co

/-- The calls around the loop of `Exec` for the output file: `os.Create` before
it and the deferred `Close` after it, when `OutputFile` is set. -/
def fileCalls (c : VerifyCommand) : List Call × List Call :=
  if c.OutputFile != "" then ([Call.create c.OutputFile], [Call.close c.OutputFile])
  else ([], [])

/-! ## The checklist and the results inside the written text -/

/-- The last line of the checklist. -/
def fulcioLine : String :=
  Fprintln ["  - Any certificates were verified against the Fulcio roots."]

/-- The writes up to and including the first one that is `fulcioLine`: the
checklist that `printVerification` emits before the results. -/
def checklistOf : List String → List String
  | [] => []
  | x :: xs => if x == fulcioLine then [x] else x :: checklistOf xs

/-- The writes after the first one that is `fulcioLine`: the results. -/
def resultsOf : List String → List String
  | [] => []
  | x :: xs => if x == fulcioLine then xs else resultsOf xs

/-! ## Concrete collaborators, used to evaluate the code -/

/-- A toy key library: a fixed key pair, a cipher that adds the first password
byte to every key byte, and an armor that prefixes the length of the label. -/
def sampleKeyLib : KeyLib where
  generateKey := .ok ([7, 7, 7], [1, 2, 3])
  encrypt := fun priv password =>
    if password = [] then .error (.msg "empty password")
    else .ok (priv.map (fun x => (x + password.headD 0) % 256))
  marshalPKIXPublicKey := fun pub => .ok (48 :: pub)
  encodeToMemory := fun blk => blk.Type_.length :: blk.Bytes

/-- A password function that returns the bytes `[10]` when asked to confirm. -/
def samplePass : PassFunc := fun confirm =>
  if confirm then .ok [10] else .error (.msg "no confirmation")

/-- The checklist in closed form: the header for the image reference, the
introductory line, the lines of the groups that are switched on (annotations,
claims, transparency log, public key), and the Fulcio line. -/
def checklistText (imgRef : String) (annotations claims tlog pubKey : Bool) : List String :=
  ["\nVerification for " ++ imgRef ++ " --\n",
   "The following checks were performed on each of these signatures:\n"] ++
  (if annotations then ["  - The specified annotations were verified.\n"] else []) ++
  (if claims then ["  - The cosign claims were validated\n"] else []) ++
  (if tlog then
    ["  - The claims were present in the transparency log\n",
     "  - The signatures were integrated into the transparency log when the certificate was valid\n"]
   else []) ++
  (if pubKey then ["  - The signatures were verified against the specified public key\n"] else []) ++
  ["  - Any certificates were verified against the Fulcio roots.\n"]

/-- The writes of `printVerification` that follow the checklist, in closed
form: the text lines of every signature for the `"text"` output, and otherwise
one line, which is the decode error, the serialization error or the serialized
slice. -/
def resultsText (env : VerifyEnv) (c : VerifyCommand) (verified : List SignedPayload) :
    List String :=
  if c.Output == "text" then textLoop verified []
  else
    match structuredLoop env verified none with
    | .error msg => ["error decoding the payload: " ++ msg ++ "\n"]
    | .ok outputKeys =>
      match env.marshal outputKeys with
      | .error msg => ["error when generating the output: " ++ msg ++ "\n"]
      | .ok b => ["\n" ++ b ++ "\n"]

/-- The required annotations are non-empty: the map has at least one entry. -/
def requiredNonEmpty (m : GoMap) : Bool :=
  match m with
  | some (_ :: _) => true
  | _ => false

/-- A toy environment: every key but `missing.pub` loads, every reference but
`bad ref` parses, every image but `unsigned` has one signature, which is the
payload `claims of <image>` with the certificate of `alice` for the image
`signed-by-alice`; every payload but `not json` decodes. -/
def sampleEnv : VerifyEnv where
  experimental := false
  fulcioRoots := ["fulcio-root"]
  loadPublicKey := fun d =>
    if d == "missing.pub" then .error (.msg "no such file") else .ok ("key of " ++ d)
  create := fun _ => .ok ()
  parseReference := fun s =>
    if s == "bad ref" then .error (.msg "could not parse reference") else .ok s
  verify := fun ref _ =>
    if ref == "unsigned" then .error (.msg "no matching signatures")
    else .ok [⟨"claims of " ++ ref, if ref == "signed-by-alice" then some ⟨"alice"⟩ else none⟩]
  unmarshal := fun p =>
    if p == "not json" then .error "invalid character" else .ok ⟨p, none⟩
  marshal := fun keys =>
    match keys with
    | none => .ok "null"
    | some xs =>
      .ok ("[" ++ ",".intercalate (xs.map (fun ss =>
        match mapGet ss.Optional "CommonName" with
        | some (GoValue.str cn) => ss.Critical ++ " by " ++ cn
        | _ => ss.Critical)) ++ "]")

/-- A verify command with the flag defaults and no key. -/
def sampleCmd : VerifyCommand where
  CheckClaims := true
  KmsVal := ""
  Key := ""
  Output := "json"
  OutputFile := ""
  Annotations := some none

/-- Options with one required annotation and the claims check switched off. -/
def sampleOpts : CheckOpts where
  Annotations := some [("env", GoValue.str "prod")]
  Claims := false
  Tlog := false
  Roots := ["fulcio-root"]
  PubKey := none

/-- The checklist line of the annotations check. -/
def annotationsLine : String := "  - The specified annotations were verified.\n"

/-- The checklist line of the claims check. -/
def claimsLine : String := "  - The cosign claims were validated\n"

/-- The first checklist line of the transparency-log check. -/
def tlogPresentLine : String := "  - The claims were present in the transparency log\n"

/-- The second checklist line of the transparency-log check. -/
def tlogIntegratedLine : String :=
  "  - The signatures were integrated into the transparency log when the certificate was valid\n"

/-- The checklist line of the public-key check. -/
def pubKeyLine : String :=
  "  - The signatures were verified against the specified public key\n"

/-- The sample command with the `"text"` output. -/
def sampleTextCmd : VerifyCommand := { sampleCmd with Output := "text" }

/-- The object `obj` is the rendering of the signature `vp`: the payload of `vp`
decodes, and `obj` is the decoded payload itself when `vp` has no certificate,
and otherwise the decoded payload with `Optional["CommonName"]` set to the common
name of the certificate and every other key of `Optional` as decoded. -/
def RenderedAs (env : VerifyEnv) (vp : SignedPayload) (obj : Simple) : Prop :=
  ∃ ss, env.unmarshal vp.Payload = .ok ss ∧
    match vp.Cert with
    | none => obj = ss
    | some crt =>
      obj.Critical = ss.Critical ∧
      mapGet obj.Optional "CommonName" = some (GoValue.str crt.CommonName) ∧
      ∀ k, k ≠ "CommonName" → mapGet obj.Optional k = mapGet ss.Optional k

/-- The reading of C5 as it is stated: the results hold the serialization of a
slice in which every signature of `verified` whose payload decodes is
rendered. -/
def AllDecodableRendered (env : VerifyEnv) (c : VerifyCommand) (imgRef : String)
    (verified : List SignedPayload) (co : CheckOpts) : Prop :=
  ∃ (outputKeys : Option (List Simple)) (b : String),
    (∀ vp ∈ verified, (∃ ss, env.unmarshal vp.Payload = .ok ss) →
      ∃ obj ∈ outputKeys.getD [], RenderedAs env vp obj) ∧
    env.marshal outputKeys = .ok b ∧
    ("\n" ++ b ++ "\n") ∈ resultsOf (printVerification env c imgRef verified co)

/-- Three signatures, the second with a payload that does not decode. -/
def sampleMixed : List SignedPayload :=
  [⟨"claims of a", none⟩, ⟨"not json", none⟩, ⟨"claims of b", none⟩]

/-- Two signatures with decodable payloads, the second with a certificate. -/
def sampleDecodable : List SignedPayload :=
  [⟨"claims of a", none⟩, ⟨"claims of b", some ⟨"alice"⟩⟩]

/-- A verify command with both a key file and a KMS key. -/
def sampleTwoKeys : VerifyCommand :=
  { sampleCmd with Key := "cosign.pub", KmsVal := "gcpkms://key" }

/-- The options that `Exec` builds for `sampleCmd` in `sampleEnv`. -/
def sampleExecOpts : CheckOpts where
  Annotations := none
  Claims := true
  Tlog := false
  Roots := ["fulcio-root"]
  PubKey := none

/-- The toy environment in which no output file can be created. -/
def sampleEnvNoFile : VerifyEnv :=
  { sampleEnv with create := fun _ => .error (.msg "permission denied") }

/-- The sample command with an output file. -/
def sampleFileCmd : VerifyCommand := { sampleCmd with OutputFile := "/no/such/dir/out.txt" }

/-! ## Theorems: `flags.go` -/

theorem oneOfLoop_spec (args : List GoValue) (h : ∀ a ∈ args, GoValue.defined a) :
    ∀ foundOne : Bool, oneOfLoop foundOne args =
      some (decide ((args.filter GoValue.nonZero).length + (if foundOne then 1 else 0) = 1)) := by
  induction args with
  | nil => intro f; cases f <;> simp [oneOfLoop]
  | cons a rest ih =>
    intro f
    have ha : GoValue.defined a := h a (List.mem_cons_self _ _)
    have ih2 := ih (fun x hx => h x (List.mem_cons_of_mem _ hx))
    unfold GoValue.defined at ha
    cases hz : a.isZero with
    | none => exact absurd hz ha
    | some z =>
      cases z with
      | true =>
        have hn : GoValue.nonZero a = false := by simp [GoValue.nonZero, hz]
        simp [oneOfLoop, hz, List.filter_cons, hn, ih2 f]
      | false =>
        have hn : GoValue.nonZero a = true := by simp [GoValue.nonZero, hz]
        cases f with
        | true => simp [oneOfLoop, hz, List.filter_cons, hn]
        | false => simp [oneOfLoop, hz, List.filter_cons, hn, ih2 true]

theorem allOfLoop_spec (args : List GoValue) (h : ∀ a ∈ args, GoValue.defined a) :
    ∀ foundAll : Bool, allOfLoop foundAll args =
      some ((foundAll || !args.isEmpty) && args.all GoValue.nonZero) := by
  induction args with
  | nil => intro f; cases f <;> simp [allOfLoop]
  | cons a rest ih =>
    intro f
    have ha : GoValue.defined a := h a (List.mem_cons_self _ _)
    have ih2 := ih (fun x hx => h x (List.mem_cons_of_mem _ hx))
    unfold GoValue.defined at ha
    cases hz : a.isZero with
    | none => exact absurd hz ha
    | some z =>
      cases z with
      | true =>
        have hn : GoValue.nonZero a = false := by simp [GoValue.nonZero, hz]
        simp [allOfLoop, hz, hn]
      | false =>
        have hn : GoValue.nonZero a = true := by simp [GoValue.nonZero, hz]
        simp [allOfLoop, hz, hn, ih2 true]

/-- C1: for every argument list whose elements all have a defined zero-ness,
`oneOf` returns (without panicking) `true` exactly when exactly one argument is
non-zero; so it returns `false` on the empty list, on a list of zero values only,
and on every list with two or more non-zero values. -/
theorem oneOf_iff_exactly_one (args : List GoValue) (h : ∀ a ∈ args, GoValue.defined a) :
    (∃ b, oneOf args = some b ∧ (b = true ↔ (args.filter GoValue.nonZero).length = 1)) ∧
    oneOf [] = some false ∧
    ((args.filter GoValue.nonZero).length = 0 → oneOf args = some false) ∧
    (2 ≤ (args.filter GoValue.nonZero).length → oneOf args = some false) := by
  have key := oneOfLoop_spec args h false
  simp only [Bool.false_eq_true, if_false, Nat.add_zero] at key
  refine ⟨⟨_, key, by simp⟩, by simp [oneOf, oneOfLoop], ?_, ?_⟩
  · intro h0; unfold oneOf; rw [key]; simp [h0]
  · intro h2; unfold oneOf; rw [key]; simp; omega

/-- Witness of C1: three defined arguments, exactly one of them non-zero. -/
theorem oneOf_iff_exactly_one_witness :
    oneOf [GoValue.str "", GoValue.str "cosign.pub", GoValue.int 0] = some true ∧
    oneOf [GoValue.str "a", GoValue.bool true] = some false :=
  have h2 := oneOf_iff_exactly_one [GoValue.str "a", GoValue.bool true]
    (by intro a ha; simp at ha; rcases ha with rfl | rfl <;> simp [GoValue.defined, GoValue.isZero])
  ⟨by decide, h2.2.2.2 (by decide)⟩

/-- C2: for every argument list whose elements all have a defined zero-ness,
`allOf` returns (without panicking) `true` exactly when the list is non-empty and
every argument is non-zero; so it returns `false` on the empty list and on every
list with a zero-valued member. -/
theorem allOf_iff_nonempty_all (args : List GoValue) (h : ∀ a ∈ args, GoValue.defined a) :
    (∃ b, allOf args = some b ∧
      (b = true ↔ (args ≠ [] ∧ ∀ a ∈ args, GoValue.nonZero a = true))) ∧
    allOf [] = some false ∧
    ((∃ a ∈ args, a.isZero = some true) → allOf args = some false) := by
  have key := allOfLoop_spec args h false
  refine ⟨⟨_, key, ?_⟩, by simp [allOf, allOfLoop], ?_⟩
  · cases args <;> simp
  · rintro ⟨a, ha, hz⟩
    unfold allOf
    rw [key]
    have hn : GoValue.nonZero a = false := by simp [GoValue.nonZero, hz]
    have : args.all GoValue.nonZero = false := by
      rw [List.all_eq_false]
      exact ⟨a, ha, by simp [hn]⟩
    simp [this]

/-- Witness of C2: two non-zero arguments, and a list with a zero member. -/
theorem allOf_iff_nonempty_all_witness :
    allOf [GoValue.str "key", GoValue.int 3] = some true ∧
    allOf [GoValue.str "key", GoValue.str ""] = some false :=
  have h2 := allOf_iff_nonempty_all [GoValue.str "key", GoValue.str ""]
    (by intro a ha; simp at ha; rcases ha with rfl | rfl <;> simp [GoValue.defined, GoValue.isZero])
  ⟨by decide, h2.2.2 ⟨GoValue.str "", by simp, by decide⟩⟩

/-! ## Theorems: `keys.go` -/

theorem GenerateKeyPair_of_generate_error (lib : KeyLib) (pf : PassFunc) (e : GoError)
    (hg : lib.generateKey = .error e) :
    GenerateKeyPair lib pf = ⟨none, some e, []⟩ := by
  simp [GenerateKeyPair, hg]

theorem GenerateKeyPair_of_prompt_error (lib : KeyLib) (pf : PassFunc) (e : GoError)
    (pub priv : Bytes) (hg : lib.generateKey = .ok (pub, priv)) (hp : pf true = .error e) :
    GenerateKeyPair lib pf = ⟨none, some e, [true]⟩ := by
  simp [GenerateKeyPair, callPass, hg, hp]

theorem GenerateKeyPair_of_encrypt_error (lib : KeyLib) (pf : PassFunc) (e : GoError)
    (pub priv password : Bytes) (hg : lib.generateKey = .ok (pub, priv))
    (hp : pf true = .ok password) (he : lib.encrypt priv password = .error e) :
    GenerateKeyPair lib pf = ⟨none, some e, [true]⟩ := by
  simp [GenerateKeyPair, callPass, hg, hp, he]

theorem GenerateKeyPair_of_marshal_error (lib : KeyLib) (pf : PassFunc) (e : GoError)
    (pub priv password encBytes : Bytes) (hg : lib.generateKey = .ok (pub, priv))
    (hp : pf true = .ok password) (he : lib.encrypt priv password = .ok encBytes)
    (hm : lib.marshalPKIXPublicKey pub = .error e) :
    GenerateKeyPair lib pf = ⟨none, some e, [true]⟩ := by
  simp [GenerateKeyPair, callPass, hg, hp, he, hm]

theorem GenerateKeyPair_of_success (lib : KeyLib) (pf : PassFunc)
    (pub priv password encBytes b : Bytes) (hg : lib.generateKey = .ok (pub, priv))
    (hp : pf true = .ok password) (he : lib.encrypt priv password = .ok encBytes)
    (hm : lib.marshalPKIXPublicKey pub = .ok b) :
    GenerateKeyPair lib pf =
      ⟨some ⟨lib.encodeToMemory ⟨"ENCRYPTED COSIGN PRIVATE KEY", encBytes⟩,
             lib.encodeToMemory ⟨"PUBLIC KEY", b⟩⟩, none, [true]⟩ := by
  simp [GenerateKeyPair, callPass, hg, hp, he, hm]

/-- C7: `GenerateKeyPair` never returns a partial key pair.  Either it returns a
non-nil `Keys` whose two fields are the two armored blocks together with a nil
error, or it returns a nil `Keys` and a non-nil error; and the error returned is
`e` exactly when `e` is the error of the first failing step among key
generation, the password prompt, encryption and public-key marshaling. -/
theorem GenerateKeyPair_all_or_nothing (lib : KeyLib) (pf : PassFunc) :
    ((∃ k enc b, (GenerateKeyPair lib pf).keys = some k ∧ (GenerateKeyPair lib pf).err = none ∧
        k.PrivateBytes = lib.encodeToMemory ⟨"ENCRYPTED COSIGN PRIVATE KEY", enc⟩ ∧
        k.PublicBytes = lib.encodeToMemory ⟨"PUBLIC KEY", b⟩) ∨
      ((GenerateKeyPair lib pf).keys = none ∧ ∃ e, (GenerateKeyPair lib pf).err = some e)) ∧
    (∀ e, (GenerateKeyPair lib pf).err = some e ↔
      (lib.generateKey = .error e ∨
        ∃ pub priv, lib.generateKey = .ok (pub, priv) ∧
          (pf true = .error e ∨
            ∃ password, pf true = .ok password ∧
              (lib.encrypt priv password = .error e ∨
                ∃ encBytes, lib.encrypt priv password = .ok encBytes ∧
                  lib.marshalPKIXPublicKey pub = .error e)))) := by
  cases hg : lib.generateKey with
  | error e0 =>
    rw [GenerateKeyPair_of_generate_error lib pf e0 hg]
    simp
  | ok kp =>
    obtain ⟨pub, priv⟩ := kp
    cases hp : pf true with
    | error e0 =>
      rw [GenerateKeyPair_of_prompt_error lib pf e0 pub priv hg hp]
      simp
    | ok password =>
      cases he : lib.encrypt priv password with
      | error e0 =>
        rw [GenerateKeyPair_of_encrypt_error lib pf e0 pub priv password hg hp he]
        simp only [reduceCtorEq, false_and, exists_false, and_false, Option.some.injEq,
          exists_eq', and_self, or_true, true_and, false_or, Except.ok.injEq, Prod.mk.injEq,
          Except.error.injEq]
        intro e
        constructor
        · intro h; exact ⟨pub, priv, ⟨rfl, rfl⟩, password, rfl, Or.inl (by rw [he, h])⟩
        · rintro ⟨pub1, priv1, ⟨rfl, rfl⟩, pw1, rfl, h | ⟨x, hx, _⟩⟩
          · rw [he] at h; exact Except.error.inj h
          · rw [he] at hx; cases hx
      | ok encBytes =>
        cases hm : lib.marshalPKIXPublicKey pub with
        | error e0 =>
          rw [GenerateKeyPair_of_marshal_error lib pf e0 pub priv password encBytes hg hp he hm]
          simp only [reduceCtorEq, false_and, exists_false, and_false, Option.some.injEq,
            exists_eq', and_self, or_true, true_and, false_or, Except.ok.injEq, Prod.mk.injEq,
            Except.error.injEq]
          intro e
          constructor
          · intro h
            exact ⟨pub, priv, ⟨rfl, rfl⟩, password, rfl, Or.inr ⟨encBytes, he, by rw [hm, h]⟩⟩
          · rintro ⟨pub1, priv1, ⟨rfl, rfl⟩, pw1, rfl, h | ⟨x, _, hx⟩⟩
            · rw [he] at h; cases h
            · rw [hm] at hx; exact Except.error.inj hx
        | ok b =>
          rw [GenerateKeyPair_of_success lib pf pub priv password encBytes b hg hp he hm]
          refine ⟨Or.inl ⟨_, encBytes, b, rfl, rfl, rfl, rfl⟩, ?_⟩
          intro e
          simp only [reduceCtorEq, false_iff, not_or, not_exists, not_and, Except.ok.injEq,
            Prod.mk.injEq, and_imp, not_false_eq_true, true_and]
          intro pub1 priv1 h1 h2
          subst h1 h2
          intro pw hpw
          subst hpw
          rw [he]
          refine ⟨by simp, fun x hx => ?_⟩
          rw [hm]; simp

/-- C8: on every successful call of `GenerateKeyPair` the password function is
called exactly once, with `true`; `PrivateBytes` is the armored block of type
`ENCRYPTED COSIGN PRIVATE KEY` whose payload is the result of encrypting the
generated private key with the password that call returned; `PublicBytes` is the
armored block of type `PUBLIC KEY` whose payload is the encoding of the matching
public key; the two blocks carry different type labels. -/
theorem GenerateKeyPair_success_blocks (lib : KeyLib) (pf : PassFunc) (k : Keys)
    (h : (GenerateKeyPair lib pf).keys = some k) :
    (GenerateKeyPair lib pf).passCalls = [true] ∧
    (GenerateKeyPair lib pf).err = none ∧
    ∃ pub priv password encBytes b privBlock pubBlock,
      lib.generateKey = .ok (pub, priv) ∧
      pf true = .ok password ∧
      lib.encrypt priv password = .ok encBytes ∧
      lib.marshalPKIXPublicKey pub = .ok b ∧
      privBlock = Block.mk "ENCRYPTED COSIGN PRIVATE KEY" encBytes ∧
      pubBlock = Block.mk "PUBLIC KEY" b ∧
      k.PrivateBytes = lib.encodeToMemory privBlock ∧
      k.PublicBytes = lib.encodeToMemory pubBlock ∧
      privBlock.Type_ ≠ pubBlock.Type_ := by
  cases hg : lib.generateKey with
  | error e0 =>
    rw [GenerateKeyPair_of_generate_error lib pf e0 hg] at h
    simp at h
  | ok kp =>
    obtain ⟨pub, priv⟩ := kp
    cases hp : pf true with
    | error e0 =>
      rw [GenerateKeyPair_of_prompt_error lib pf e0 pub priv hg hp] at h
      simp at h
    | ok password =>
      cases he : lib.encrypt priv password with
      | error e0 =>
        rw [GenerateKeyPair_of_encrypt_error lib pf e0 pub priv password hg hp he] at h
        simp at h
      | ok encBytes =>
        cases hm : lib.marshalPKIXPublicKey pub with
        | error e0 =>
          rw [GenerateKeyPair_of_marshal_error lib pf e0 pub priv password encBytes hg hp he hm] at h
          simp at h
        | ok b =>
          rw [GenerateKeyPair_of_success lib pf pub priv password encBytes b hg hp he hm] at h ⊢
          simp only [Option.some.injEq] at h
          subst h
          refine ⟨rfl, rfl, pub, priv, password, encBytes, b, _, _, rfl, rfl, he, hm, rfl, rfl,
            rfl, rfl, ?_⟩
          show "ENCRYPTED COSIGN PRIVATE KEY" ≠ "PUBLIC KEY"
          decide

/-- Witness of C8: the toy key library with the confirming password function. -/
theorem GenerateKeyPair_success_blocks_witness :
    (GenerateKeyPair sampleKeyLib samplePass).keys = some ⟨[28, 11, 12, 13], [10, 48, 7, 7, 7]⟩ ∧
    (GenerateKeyPair sampleKeyLib samplePass).passCalls = [true] :=
  ⟨by decide,
   (GenerateKeyPair_success_blocks sampleKeyLib samplePass
      ⟨[28, 11, 12, 13], [10, 48, 7, 7, 7]⟩ (by decide)).1⟩

/-! ## Theorems: `Exec`, the key configuration -/

/-- C3: when `Key` and `KmsVal` are both non-empty and there is at least one
image reference, `Exec` returns `KeyParseError` without having called any other
package (no `LoadPublicKey`, no `ParseReference`, no `Verify`, no file creation)
and without having written anything. -/
theorem Exec_two_key_sources_fail_first (env : VerifyEnv) (c : VerifyCommand)
    (args : List String) (hkey : c.Key ≠ "") (hkms : c.KmsVal ≠ "") (hargs : args ≠ []) :
    (Exec env c args).outcome = .returned (some .keyParseError) ∧
    (Exec env c args).calls = [] ∧
    (Exec env c args).written = [] := by
  have hlen : (args.length == 0) = false := by
    cases args with
    | nil => exact absurd rfl hargs
    | cons a t => simp
  have hboth : (c.Key != "" && c.KmsVal != "") = true := by
    simp [bne_iff_ne, hkey, hkms]
  simp [Exec, hlen, hboth]

/-! ## Theorems: the checklist of `printVerification` -/

theorem fulcioLine_eq :
    fulcioLine = "  - Any certificates were verified against the Fulcio roots.\n" := by
  decide

theorem header_ne_fulcioLine (imgRef : String) :
    (("\nVerification for " ++ imgRef ++ " --\n") == fulcioLine) = false := by
  rw [beq_eq_false_iff_ne, fulcioLine_eq]
  intro h
  have h2 := congrArg String.data h
  simp [String.data_append] at h2

theorem checklistOf_append_fulcio (pre rest : List String)
    (hpre : ∀ x ∈ pre, (x == fulcioLine) = false) :
    checklistOf (pre ++ fulcioLine :: rest) = pre ++ [fulcioLine] ∧
    resultsOf (pre ++ fulcioLine :: rest) = rest := by
  induction pre with
  | nil => simp [checklistOf, resultsOf]
  | cons x xs ih =>
    have hx := hpre x (List.mem_cons_self _ _)
    have ih2 := ih (fun y hy => hpre y (List.mem_cons_of_mem _ hy))
    simp [checklistOf, resultsOf, hx, ih2]

theorem textLoop_append (verified : List SignedPayload) :
    ∀ file : List String, textLoop verified file = file ++ textLoop verified [] := by
  induction verified with
  | nil => intro file; simp [textLoop]
  | cons vp rest ih =>
    intro file
    cases hc : vp.Cert with
    | none =>
      simp only [textLoop, hc]
      rw [ih (file ++ _), ih ([] ++ _)]
      simp
    | some cert =>
      simp only [textLoop, hc]
      rw [ih (file ++ _ ++ _), ih ([] ++ _ ++ _)]
      simp

theorem Fprintln_one (s : String) : Fprintln [s] = s ++ "\n" := by
  simp [Fprintln, String.intercalate, String.intercalate.go]

theorem Fprintln_two (s t : String) : Fprintln [s, t] = s ++ " " ++ t ++ "\n" := by
  simp [Fprintln, String.intercalate, String.intercalate.go]

theorem printVerification_eq (env : VerifyEnv) (c : VerifyCommand) (imgRef : String)
    (verified : List SignedPayload) (co : CheckOpts) :
    printVerification env c imgRef verified co =
      checklistText imgRef (co.Claims && co.Annotations.isSome) co.Claims co.Tlog
        co.PubKey.isSome ++ resultsText env c verified := by
  unfold printVerification resultsText checklistText
  simp only [Fprintln_one, Fprintln_two]
  cases co.Claims <;> cases co.Annotations.isSome <;> cases co.Tlog <;>
    cases co.PubKey.isSome <;> cases (c.Output == "text") <;>
    simp [textLoop_append verified (_ :: _)] <;>
    (cases structuredLoop env verified none with
     | error msg => simp
     | ok outputKeys => cases hm : env.marshal outputKeys <;> simp [hm])

theorem header_ne_of_head (imgRef s : String) (h : s.data.head? ≠ some '\n') :
    ("\nVerification for " ++ imgRef ++ " --\n") ≠ s := by
  intro heq
  apply h
  rw [← heq]
  simp [String.data_append]

theorem checklistText_split (imgRef : String) (a cl t p : Bool) (rest : List String) :
    checklistOf (checklistText imgRef a cl t p ++ rest) = checklistText imgRef a cl t p ∧
    resultsOf (checklistText imgRef a cl t p ++ rest) = rest := by
  have hh := header_ne_fulcioLine imgRef
  have key : ∃ pre, checklistText imgRef a cl t p = pre ++ [fulcioLine] ∧
      ∀ x ∈ pre, (x == fulcioLine) = false := by
    refine ⟨["\nVerification for " ++ imgRef ++ " --\n",
      "The following checks were performed on each of these signatures:\n"] ++
      (if a then ["  - The specified annotations were verified.\n"] else []) ++
      (if cl then ["  - The cosign claims were validated\n"] else []) ++
      (if t then
        ["  - The claims were present in the transparency log\n",
         "  - The signatures were integrated into the transparency log when the certificate was valid\n"]
       else []) ++
      (if p then ["  - The signatures were verified against the specified public key\n"] else []),
      by rw [fulcioLine_eq]; rfl, ?_⟩
    intro x hx
    simp only [List.mem_append, List.mem_cons, List.mem_singleton, List.not_mem_nil, or_false] at hx
    rcases hx with (((((rfl | rfl) | hx) | hx) | hx) | hx)
    · exact hh
    · decide
    · cases a
      · simp at hx
      · simp at hx; subst hx; decide
    · cases cl
      · simp at hx
      · simp at hx; subst hx; decide
    · cases t
      · simp at hx
      · simp at hx; rcases hx with rfl | rfl <;> decide
    · cases p
      · simp at hx
      · simp at hx; subst hx; decide
  obtain ⟨pre, hpre, hne⟩ := key
  rw [hpre, List.append_assoc]
  exact checklistOf_append_fulcio pre rest hne

/-- C4: the checklist that `printVerification` emits before the results is
determined by the image reference and by which of the predicates of `CheckOpts`
(claims, annotations, transparency log, public key) are switched on: two calls
with the same image reference and the same switches emit the same checklist,
whatever the verified signatures, the output format and the decoders are; and the
output of a call is its checklist followed by its results. -/
theorem printVerification_checklist_ignores_results (env1 env2 : VerifyEnv)
    (c1 c2 : VerifyCommand) (imgRef : String) (verified1 verified2 : List SignedPayload)
    (co1 co2 : CheckOpts) (hclaims : co1.Claims = co2.Claims)
    (hann : co1.Annotations.isSome = co2.Annotations.isSome)
    (htlog : co1.Tlog = co2.Tlog) (hpub : co1.PubKey.isSome = co2.PubKey.isSome) :
    checklistOf (printVerification env1 c1 imgRef verified1 co1) =
      checklistOf (printVerification env2 c2 imgRef verified2 co2) ∧
    checklistOf (printVerification env1 c1 imgRef verified1 co1) ≠ [] ∧
    printVerification env1 c1 imgRef verified1 co1 =
      checklistOf (printVerification env1 c1 imgRef verified1 co1) ++
        resultsOf (printVerification env1 c1 imgRef verified1 co1) := by
  rw [printVerification_eq env1, printVerification_eq env2]
  rw [(checklistText_split _ _ _ _ _ _).1, (checklistText_split _ _ _ _ _ _).1,
    (checklistText_split _ _ _ _ _ _).2, hclaims, hann, htlog, hpub]
  refine ⟨rfl, ?_, rfl⟩
  simp [checklistText]

/-- Witness of C4: the same image and options, with no signature in the default
output and with one certificate-bearing signature in the text output. -/
theorem printVerification_checklist_ignores_results_witness :
    checklistOf (printVerification sampleEnv sampleCmd "img" [] sampleOpts) =
      checklistOf (printVerification sampleEnv sampleTextCmd "img"
        [⟨"not json", some ⟨"alice"⟩⟩] sampleOpts) :=
  (printVerification_checklist_ignores_results sampleEnv sampleEnv sampleCmd sampleTextCmd "img"
    [] [⟨"not json", some ⟨"alice"⟩⟩] sampleOpts sampleOpts rfl rfl rfl rfl).1

/-- C9, as stated, fails: with one required annotation and the claims check
switched off, the annotations line is not printed, neither in the checklist nor
anywhere else in the output. -/
theorem annotations_line_needs_claims_counterexample :
    requiredNonEmpty sampleOpts.Annotations = true ∧
    annotationsLine ∉ checklistOf (printVerification sampleEnv sampleCmd "img" [] sampleOpts) ∧
    annotationsLine ∉ printVerification sampleEnv sampleCmd "img" [] sampleOpts := by
  decide

/-- C9, amended: the checklist holds the annotations line exactly when the claims
check is on and the annotations map is not nil, the claims line exactly when the
claims check is on, each transparency-log line exactly when the log check is on,
the public-key line exactly when a public key is set, and always the Fulcio
line. -/
theorem printVerification_checklist_lines (env : VerifyEnv) (c : VerifyCommand)
    (imgRef : String) (verified : List SignedPayload) (co : CheckOpts) :
    (annotationsLine ∈ checklistOf (printVerification env c imgRef verified co) ↔
      (co.Claims = true ∧ co.Annotations.isSome = true)) ∧
    (claimsLine ∈ checklistOf (printVerification env c imgRef verified co) ↔
      co.Claims = true) ∧
    (tlogPresentLine ∈ checklistOf (printVerification env c imgRef verified co) ↔
      co.Tlog = true) ∧
    (tlogIntegratedLine ∈ checklistOf (printVerification env c imgRef verified co) ↔
      co.Tlog = true) ∧
    (pubKeyLine ∈ checklistOf (printVerification env c imgRef verified co) ↔
      co.PubKey.isSome = true) ∧
    fulcioLine ∈ checklistOf (printVerification env c imgRef verified co) := by
  rw [printVerification_eq, (checklistText_split _ _ _ _ _ _).1, fulcioLine_eq]
  have h1 := (header_ne_of_head imgRef annotationsLine (by decide)).symm
  have h2 := (header_ne_of_head imgRef claimsLine (by decide)).symm
  have h3 := (header_ne_of_head imgRef tlogPresentLine (by decide)).symm
  have h4 := (header_ne_of_head imgRef tlogIntegratedLine (by decide)).symm
  have h5 := (header_ne_of_head imgRef pubKeyLine (by decide)).symm
  unfold annotationsLine at h1 ⊢
  unfold claimsLine at h2 ⊢
  unfold tlogPresentLine at h3 ⊢
  unfold tlogIntegratedLine at h4 ⊢
  unfold pubKeyLine at h5 ⊢
  unfold checklistText
  cases co.Claims <;> cases co.Annotations.isSome <;> cases co.Tlog <;>
    cases co.PubKey.isSome <;> simp [h1, h2, h3, h4, h5]

/-! ## Theorems: the structured results of `printVerification` -/

theorem mapGet_mapSet_same (m : List (String × GoValue)) (k : String) (v : GoValue) :
    mapGet (some (mapSet m k v)) k = some v := by
  simp [mapGet, mapSet]

theorem find_filter_ne (m : List (String × GoValue)) (k k2 : String) (h : k2 ≠ k) :
    (m.filter (fun e => e.1 != k)).find? (fun e => e.1 == k2) =
      m.find? (fun e => e.1 == k2) := by
  rw [List.find?_filter]
  congr 1
  funext e
  by_cases h2 : e.1 = k2
  · have hk : ¬ e.1 = k := fun h3 => h (h2 ▸ h3)
    simp [h2, hk]
    exact fun h3 => hk (h2 ▸ h3)
  · simp [h2]

theorem mapGet_mapSet_other (m : List (String × GoValue)) (k k2 : String) (v : GoValue)
    (h : k2 ≠ k) : mapGet (some (mapSet m k v)) k2 = mapGet (some m) k2 := by
  have hk : ¬ k = k2 := fun h3 => h h3.symm
  simp [mapGet, mapSet, List.find?_cons, hk, find_filter_ne m k k2 h]

theorem injectCommonName_rendered (env : VerifyEnv) (vp : SignedPayload) (ss : Simple)
    (h : env.unmarshal vp.Payload = .ok ss) :
    RenderedAs env vp (injectCommonName ss vp.Cert) := by
  refine ⟨ss, h, ?_⟩
  cases hc : vp.Cert with
  | none => simp [injectCommonName]
  | some crt =>
    refine ⟨rfl, mapGet_mapSet_same _ _ _, ?_⟩
    intro k hk
    show mapGet (some (mapSet _ "CommonName" _)) k = _
    rw [mapGet_mapSet_other _ _ _ _ hk]
    cases ss.Optional <;> simp [mapGet]

theorem foldl_goAppend_getD (objs : List Simple) :
    ∀ acc : Option (List Simple),
      ((objs.foldl goAppend acc).getD [] = acc.getD [] ++ objs) ∧
      ((objs.foldl goAppend acc).isSome = (acc.isSome || !objs.isEmpty)) := by
  induction objs with
  | nil => intro acc; simp
  | cons o rest ih =>
    intro acc
    have h := ih (goAppend acc o)
    simp only [List.foldl_cons]
    rw [h.1, h.2]
    simp [goAppend]

theorem structuredLoop_all_decode (env : VerifyEnv) (verified : List SignedPayload)
    (h : ∀ vp ∈ verified, ∃ ss, env.unmarshal vp.Payload = .ok ss) :
    ∀ acc : Option (List Simple), ∃ objs : List Simple,
      List.Forall₂ (RenderedAs env) verified objs ∧
      structuredLoop env verified acc = .ok (objs.foldl goAppend acc) := by
  induction verified with
  | nil => intro acc; exact ⟨[], List.Forall₂.nil, rfl⟩
  | cons vp rest ih =>
    intro acc
    obtain ⟨ss, hss⟩ := h vp (List.mem_cons_self _ _)
    obtain ⟨objs, hobjs, hloop⟩ :=
      ih (fun x hx => h x (List.mem_cons_of_mem _ hx)) (goAppend acc (injectCommonName ss vp.Cert))
    refine ⟨injectCommonName ss vp.Cert :: objs,
      List.Forall₂.cons (injectCommonName_rendered env vp ss hss) hobjs, ?_⟩
    simp [structuredLoop, hss, hloop]

theorem structuredLoop_first_error (env : VerifyEnv) (pre : List SignedPayload)
    (vp : SignedPayload) (post : List SignedPayload) (msg : String)
    (hpre : ∀ x ∈ pre, ∃ ss, env.unmarshal x.Payload = .ok ss)
    (hvp : env.unmarshal vp.Payload = .error msg) :
    ∀ acc : Option (List Simple), structuredLoop env (pre ++ vp :: post) acc = .error msg := by
  induction pre with
  | nil => intro acc; simp [structuredLoop, hvp]
  | cons x rest ih =>
    intro acc
    obtain ⟨ss, hss⟩ := hpre x (List.mem_cons_self _ _)
    simp [structuredLoop, hss, ih (fun y hy => hpre y (List.mem_cons_of_mem _ hy))]

theorem resultsOf_printVerification (env : VerifyEnv) (c : VerifyCommand) (imgRef : String)
    (verified : List SignedPayload) (co : CheckOpts) :
    resultsOf (printVerification env c imgRef verified co) = resultsText env c verified := by
  rw [printVerification_eq, (checklistText_split _ _ _ _ _ _).2]

/-- C6: in the default (not `"text"`) output, when every payload decodes, the
results are exactly one write, the serialization of the one slice `outputKeys`
(or the error line of `json.Marshal`); the slice holds one object per verified
signature, in the input order, the i-th object being the rendering of the i-th
signature: the decoded payload unchanged when the signature has no certificate,
and the decoded payload with `Optional["CommonName"]` set to the common name of
the certificate otherwise.  The slice is nil exactly when there is no
signature. -/
theorem printVerification_structured_all_decode (env : VerifyEnv) (c : VerifyCommand)
    (imgRef : String) (verified : List SignedPayload) (co : CheckOpts)
    (hfmt : c.Output ≠ "text")
    (hdec : ∀ vp ∈ verified, ∃ ss, env.unmarshal vp.Payload = .ok ss) :
    ∃ outputKeys : Option (List Simple),
      List.Forall₂ (RenderedAs env) verified (outputKeys.getD []) ∧
      (outputKeys = none ↔ verified = []) ∧
      resultsOf (printVerification env c imgRef verified co) =
        [match env.marshal outputKeys with
         | .ok b => "\n" ++ b ++ "\n"
         | .error msg => "error when generating the output: " ++ msg ++ "\n"] := by
  obtain ⟨objs, hobjs, hloop⟩ := structuredLoop_all_decode env verified hdec none
  have hf := foldl_goAppend_getD objs none
  refine ⟨objs.foldl goAppend none, ?_, ?_, ?_⟩
  · rw [hf.1]; simpa using hobjs
  · have hlen := hobjs.length_eq
    rw [← Option.not_isSome_iff_eq_none, hf.2]
    cases objs with
    | nil => simpa using List.length_eq_zero.mp hlen
    | cons o os =>
      cases verified with
      | nil => simp at hlen
      | cons v vs => simp
  · rw [resultsOf_printVerification]
    have hb : (c.Output == "text") = false := by simpa using hfmt
    simp only [resultsText, hb, hloop]
    cases env.marshal (objs.foldl goAppend none) <;> simp

/-- C5, amended: in the default (not `"text"`) output, when the payload of `vp`
is the first one that does not decode, the results are exactly one write, the
decode error of `vp`: nothing is serialized and no signature is rendered. -/
theorem printVerification_structured_decode_error (env : VerifyEnv) (c : VerifyCommand)
    (imgRef : String) (pre : List SignedPayload) (vp : SignedPayload)
    (post : List SignedPayload) (co : CheckOpts) (msg : String)
    (hfmt : c.Output ≠ "text")
    (hpre : ∀ x ∈ pre, ∃ ss, env.unmarshal x.Payload = .ok ss)
    (hvp : env.unmarshal vp.Payload = .error msg) :
    resultsOf (printVerification env c imgRef (pre ++ vp :: post) co) =
      ["error decoding the payload: " ++ msg ++ "\n"] := by
  rw [resultsOf_printVerification]
  have hb : (c.Output == "text") = false := by simpa using hfmt
  simp [resultsText, hb, structuredLoop_first_error env pre vp post msg hpre hvp none]

/-- Witness of C6: two decodable signatures, the second with the certificate of
`alice`, in the default output. -/
theorem printVerification_structured_all_decode_witness :
    resultsOf (printVerification sampleEnv sampleCmd "img" sampleDecodable sampleOpts) =
      ["\n[claims of a,claims of b by alice]\n"] ∧
    ∃ outputKeys : Option (List Simple),
      List.Forall₂ (RenderedAs sampleEnv) sampleDecodable (outputKeys.getD []) ∧
      (outputKeys = none ↔ sampleDecodable = []) ∧
      resultsOf (printVerification sampleEnv sampleCmd "img" sampleDecodable sampleOpts) =
        [match sampleEnv.marshal outputKeys with
         | .ok b => "\n" ++ b ++ "\n"
         | .error msg => "error when generating the output: " ++ msg ++ "\n"] :=
  ⟨by decide,
   printVerification_structured_all_decode sampleEnv sampleCmd "img" sampleDecodable sampleOpts
     (by decide)
     (by
       intro vp hvp
       simp only [sampleDecodable, List.mem_cons, List.mem_singleton, List.not_mem_nil,
         or_false] at hvp
       rcases hvp with rfl | rfl
       · exact ⟨_, rfl⟩
       · exact ⟨_, rfl⟩)⟩

/-- Witness of C5, amended: three signatures, the second undecodable. -/
theorem printVerification_structured_decode_error_witness :
    resultsOf (printVerification sampleEnv sampleCmd "img"
      ([⟨"claims of a", none⟩] ++ ⟨"not json", none⟩ :: [⟨"claims of b", none⟩]) sampleOpts) =
      ["error decoding the payload: " ++ "invalid character" ++ "\n"] :=
  printVerification_structured_decode_error sampleEnv sampleCmd "img"
    [⟨"claims of a", none⟩] ⟨"not json", none⟩ [⟨"claims of b", none⟩] sampleOpts
    "invalid character" (by decide)
    (by
      intro x hx
      simp only [List.mem_singleton] at hx
      subst hx
      exact ⟨_, rfl⟩)
    rfl

/-- C5, as stated, fails: of three signatures whose first and third payloads
decode and whose second does not, the results are the one decode-error line, and
no serialization of the decodable signatures is in them. -/
theorem decode_error_aborts_counterexample :
    (∃ ss, sampleEnv.unmarshal "claims of a" = .ok ss) ∧
    (∃ ss, sampleEnv.unmarshal "claims of b" = .ok ss) ∧
    resultsOf (printVerification sampleEnv sampleCmd "img" sampleMixed sampleOpts) =
      ["error decoding the payload: invalid character\n"] ∧
    ¬ AllDecodableRendered sampleEnv sampleCmd "img" sampleMixed sampleOpts := by
  have hres : resultsOf (printVerification sampleEnv sampleCmd "img" sampleMixed sampleOpts) =
      ["error decoding the payload: invalid character\n"] := by decide
  refine ⟨⟨_, rfl⟩, ⟨_, rfl⟩, hres, ?_⟩
  rintro ⟨outputKeys, b, _, _, hmem⟩
  rw [hres, List.mem_singleton] at hmem
  have h2 := congrArg String.data hmem
  simp [String.data_append] at h2

/-- Witness of C3: a key file and a KMS key together, with one image. -/
theorem Exec_two_key_sources_fail_first_witness :
    (Exec sampleEnv sampleTwoKeys ["img"]).outcome = .returned (some .keyParseError) ∧
    (Exec sampleEnv sampleTwoKeys ["img"]).calls = [] ∧
    (Exec sampleEnv sampleTwoKeys ["img"]).written = [] :=
  Exec_two_key_sources_fail_first sampleEnv sampleTwoKeys ["img"] (by decide) (by decide)
    (by simp)

/-! ## Theorems: the loop of `Exec` -/

theorem refError_none (env : VerifyEnv) (co : CheckOpts) (r : String)
    (h : refError env co r = none) :
    ∃ ref verified, env.parseReference r = .ok ref ∧ env.verify ref co = .ok verified := by
  unfold refError at h
  cases hp : env.parseReference r with
  | error e => simp [hp] at h
  | ok ref =>
    cases hv : env.verify ref co with
    | error e => simp [hp, hv] at h
    | ok verified => exact ⟨ref, verified, rfl, hv⟩

theorem execLoop_ok_front (env : VerifyEnv) (c : VerifyCommand) (co : CheckOpts)
    (pre : List String) (hpre : ∀ r ∈ pre, refError env co r = none) :
    ∀ (rest : List String) (calls : List Call) (written : List String),
      execLoop env c co (pre ++ rest) calls written =
        execLoop env c co rest (calls ++ pre.flatMap (refCalls env co))
          (written ++ pre.flatMap (refBlock env c co)) := by
  induction pre with
  | nil => intro rest calls written; simp
  | cons r pre2 ih =>
    intro rest calls written
    obtain ⟨ref, verified, hp, hv⟩ := refError_none env co r (hpre r (List.mem_cons_self _ _))
    have ih2 := ih (fun x hx => hpre x (List.mem_cons_of_mem _ hx))
    simp only [List.cons_append, execLoop, hp, hv, List.flatMap_cons, refCalls, refBlock]
    show execLoop env c co (pre2 ++ rest) _ _ = _
    rw [ih2]
    simp [List.append_assoc]

theorem execLoop_stop (env : VerifyEnv) (c : VerifyCommand) (co : CheckOpts)
    (rest : List String) (hrest : ∀ bad ∈ rest.head?, refError env co bad ≠ none)
    (calls : List Call) (written : List String) :
    execLoop env c co rest calls written =
      ⟨.returned (rest.head?.bind (refError env co)),
        calls ++ (rest.head?.map (refCalls env co)).getD [], written⟩ := by
  cases rest with
  | nil => simp [execLoop]
  | cons bad post =>
    have hb := hrest bad (by simp)
    unfold refError at hb
    simp only [List.head?_cons, Option.bind_some, Option.map_some', Option.getD_some]
    cases hp : env.parseReference bad with
    | error e => simp [execLoop, hp, refError, refCalls]
    | ok ref =>
      cases hv : env.verify ref co with
      | error e => simp [execLoop, hp, hv, refError, refCalls]
      | ok verified => simp [hp, hv] at hb

/-- C10, amended: when the key sources are not both set, the `Annotations`
pointer is not nil, the key (if one is named) loads and the output file (if one
is named) can be created, `Exec` on at least one image reference handles the
references one after the other in argument order.  When `pre` are the references
before the first one whose parsing or verification fails (`rest` is empty when
none fails), the text written is the verification blocks of `pre` in order,
`Exec` returns the error of the first reference of `rest` (nil when `rest` is
empty), and the calls of the loop are one parse and one verify for each
reference of `pre`, then the calls of the failing reference, and nothing for any
later reference. -/
theorem Exec_sequential_until_first_error (env : VerifyEnv) (c : VerifyCommand)
    (annotations : GoMap) (co : CheckOpts) (pre rest : List String)
    (hann : c.Annotations = some annotations)
    (hkeys : ¬ (c.Key ≠ "" ∧ c.KmsVal ≠ ""))
    (hload : (loadOptions env c annotations).1 = .ok co)
    (hfile : c.OutputFile ≠ "" → env.create c.OutputFile = .ok ())
    (hne : pre ++ rest ≠ [])
    (hpre : ∀ r ∈ pre, refError env co r = none)
    (hrest : ∀ bad ∈ rest.head?, refError env co bad ≠ none) :
    (Exec env c (pre ++ rest)).outcome = .returned (rest.head?.bind (refError env co)) ∧
    (Exec env c (pre ++ rest)).written = pre.flatMap (refBlock env c co) ∧
    (Exec env c (pre ++ rest)).calls =
      (loadOptions env c annotations).2 ++ (fileCalls c).1 ++
        pre.flatMap (refCalls env co) ++ (rest.head?.map (refCalls env co)).getD [] ++
        (fileCalls c).2 := by
  have hlen : ((pre ++ rest).length == 0) = false := by
    cases hl : pre ++ rest with
    | nil => exact absurd hl hne
    | cons a t => simp
  have hboth : (c.Key != "" && c.KmsVal != "") = false := by
    rw [Bool.eq_false_iff]
    intro hb
    simp only [Bool.and_eq_true, bne_iff_ne] at hb
    exact hkeys hb
  have hloop : ∀ calls, execLoop env c co (pre ++ rest) calls [] =
      ⟨.returned (rest.head?.bind (refError env co)),
        calls ++ pre.flatMap (refCalls env co) ++ (rest.head?.map (refCalls env co)).getD [],
        pre.flatMap (refBlock env c co)⟩ := by
    intro calls
    rw [execLoop_ok_front env c co pre hpre, execLoop_stop env c co rest hrest]
    simp
  rcases hlo : loadOptions env c annotations with ⟨lo, lcalls⟩
  rw [hlo] at hload
  simp only at hload
  subst hload
  unfold Exec
  simp only [hlen, hboth, hann, hlo, Bool.false_eq_true, if_false]
  unfold execOutput fileCalls
  by_cases hf : c.OutputFile = ""
  · simp [hf, hloop]
  · have hf2 : (c.OutputFile != "") = true := by simpa using hf
    simp [hf2, hfile hf, hloop, deferClose]

/-- Witness of C10, amended: four references, the third of which has no
signature. -/
theorem Exec_sequential_until_first_error_witness :
    (Exec sampleEnv sampleCmd (["img-a", "signed-by-alice"] ++ ["unsigned", "img-b"])).outcome =
      .returned (some (.msg "no matching signatures")) ∧
    (Exec sampleEnv sampleCmd (["img-a", "signed-by-alice"] ++ ["unsigned", "img-b"])).written =
      printVerification sampleEnv sampleCmd "img-a" [⟨"claims of img-a", none⟩] sampleExecOpts ++
      (printVerification sampleEnv sampleCmd "signed-by-alice"
        [⟨"claims of signed-by-alice", some ⟨"alice"⟩⟩] sampleExecOpts ++ []) :=
  have h := Exec_sequential_until_first_error sampleEnv sampleCmd none sampleExecOpts
    ["img-a", "signed-by-alice"] ["unsigned", "img-b"] rfl (by decide) rfl
    (fun hf => absurd rfl hf) (by simp)
    (by
      intro r hr
      simp only [List.mem_cons, List.mem_singleton, List.not_mem_nil, or_false] at hr
      rcases hr with rfl | rfl <;> decide)
    (by
      intro bad hb
      simp only [List.head?_cons, Option.mem_def, Option.some.injEq] at hb
      subst hb
      decide)
  ⟨h.1, h.2.1⟩

/-- C10, as stated, fails: with no key (a valid key configuration) and an output
file that cannot be created, `Exec` on one reference that parses and verifies
returns the wrapped error of `os.Create` and writes nothing, although no
reference fails and the block of the reference is not empty; the loop is never
entered, so the reference is neither parsed nor verified. -/
theorem Exec_create_failure_counterexample :
    (sampleFileCmd.Key = "" ∧ sampleFileCmd.KmsVal = "") ∧
    (loadOptions sampleEnvNoFile sampleFileCmd none).1 = .ok sampleExecOpts ∧
    refError sampleEnvNoFile sampleExecOpts "img-a" = none ∧
    refBlock sampleEnvNoFile sampleFileCmd sampleExecOpts "img-a" ≠ [] ∧
    (Exec sampleEnvNoFile sampleFileCmd ["img-a"]).outcome =
      .returned (some (.wrap (.msg "permission denied")
        "Error creating output file /no/such/dir/out.txt")) ∧
    (Exec sampleEnvNoFile sampleFileCmd ["img-a"]).written = [] ∧
    (Exec sampleEnvNoFile sampleFileCmd ["img-a"]).calls.length = 2 := by
  refine ⟨⟨rfl, rfl⟩, rfl, by decide, by decide, by decide, by decide, by decide⟩

end Cosign
